import Mathlib

/-!
# PyDate — verification of the DateExtensions layer

The repository snapshot contains only packaging metadata (`setup.py`) for the
PyDate package; the package's module code is not present under `src/`.  The
definitions below are therefore modelled from the specification's data model
(§3 CalendarDate) and operation table (§4.1 DateExtensions): a point in civil
time under the proleptic Gregorian calendar together with the twelve stateless
derivation functions.  Machine integers do not occur: Python integers are
unbounded, so years are `Int` and the remaining fields `Nat`.
-/

namespace PyDate

/-- Modelled from the spec: leap-year rule of the proleptic Gregorian calendar
(§3 invariant "including leap-year rules").  `Int.emod` matches Python's `%`
on possibly-negative years. -/
def isLeapYear (y : Int) : Bool :=
  y % 4 == 0 && (y % 100 != 0 || y % 400 == 0)

/-- Modelled from the spec: number of days of month `m` (1–12) of year `y`
under the proleptic Gregorian calendar (§4.1 "correctly resolves month lengths
including leap years").  Out-of-range months are never supplied by valid
dates; the value 0 there is arbitrary. -/
def daysInMonth (y : Int) (m : Nat) : Nat :=
  match m with
  | 1 => 31
  | 2 => if isLeapYear y then 29 else 28
  | 3 => 31
  | 4 => 30
  | 5 => 31
  | 6 => 30
  | 7 => 31
  | 8 => 31
  | 9 => 30
  | 10 => 31
  | 11 => 30
  | 12 => 31
  | _ => 0

/-- Modelled from the spec: the CalendarDate entity (§3) — year, month, day
and a time-of-day at the host's maximum sub-second resolution (microseconds,
matching Python's `datetime`). -/
structure CalendarDate where
  year : Int
  month : Nat
  day : Nat
  hour : Nat
  minute : Nat
  second : Nat
  microsecond : Nat
deriving DecidableEq

/-- Modelled from the spec: the CalendarDate invariant (§3) — "the value must
represent a valid calendar date-time under the proleptic Gregorian calendar
(month 1–12, day valid for month/year, including leap-year rules)". -/
def Valid (d : CalendarDate) : Prop :=
  1 ≤ d.month ∧ d.month ≤ 12 ∧ 1 ≤ d.day ∧ d.day ≤ daysInMonth d.year d.month ∧
    d.hour < 24 ∧ d.minute < 60 ∧ d.second < 60 ∧ d.microsecond < 1000000

instance (d : CalendarDate) : Decidable (Valid d) := by
  unfold Valid
  exact inferInstance

/-- Modelled from the spec (§4.1): same date, time component zeroed. -/
def beginning_of_day (d : CalendarDate) : CalendarDate :=
  { d with hour := 0, minute := 0, second := 0, microsecond := 0 }

/-- Modelled from the spec (§4.1): same date, time set to the last
representable instant of that day (23:59:59.999999). -/
def end_of_day (d : CalendarDate) : CalendarDate :=
  { d with hour := 23, minute := 59, second := 59, microsecond := 999999 }

/-- Modelled from the spec (§4.1): date + 1 day, time-of-day unchanged,
crossing month/year boundaries. -/
def tomorrow (d : CalendarDate) : CalendarDate :=
  if d.day < daysInMonth d.year d.month then
    { d with day := d.day + 1 }
  else if d.month < 12 then
    { d with month := d.month + 1, day := 1 }
  else
    { d with year := d.year + 1, month := 1, day := 1 }

/-- Modelled from the spec (§4.1): date − 1 day, time-of-day unchanged,
crossing month/year boundaries. -/
def yesterday (d : CalendarDate) : CalendarDate :=
  if 1 < d.day then
    { d with day := d.day - 1 }
  else if 1 < d.month then
    { d with month := d.month - 1, day := daysInMonth d.year (d.month - 1) }
  else
    { d with year := d.year - 1, month := 12, day := 31 }

/-- Modelled from the spec (§4.1): date + n days (n a non-negative integer). -/
def days_since (d : CalendarDate) (n : Nat) : CalendarDate :=
  tomorrow^[n] d

/-- Modelled from the spec (§4.1): date − n days (n a non-negative integer). -/
def days_ago (d : CalendarDate) (n : Nat) : CalendarDate :=
  yesterday^[n] d

/-- Modelled from the spec (§4.1): first calendar day of that month, same
year; time-of-day unchanged. -/
def beginning_of_month (d : CalendarDate) : CalendarDate :=
  { d with day := 1 }

/-- Modelled from the spec (§4.1): last calendar day of that month, same
year; time-of-day unchanged. -/
def end_of_month (d : CalendarDate) : CalendarDate :=
  { d with day := daysInMonth d.year d.month }

/-- Cumulative number of days of year `y` strictly before month `m`. -/
def daysBeforeMonth (y : Int) (m : Nat) : Nat :=
  match m with
  | 1 => 0
  | 2 => 31
  | 3 => 59 + (if isLeapYear y then 1 else 0)
  | 4 => 90 + (if isLeapYear y then 1 else 0)
  | 5 => 120 + (if isLeapYear y then 1 else 0)
  | 6 => 151 + (if isLeapYear y then 1 else 0)
  | 7 => 181 + (if isLeapYear y then 1 else 0)
  | 8 => 212 + (if isLeapYear y then 1 else 0)
  | 9 => 243 + (if isLeapYear y then 1 else 0)
  | 10 => 273 + (if isLeapYear y then 1 else 0)
  | 11 => 304 + (if isLeapYear y then 1 else 0)
  | 12 => 334 + (if isLeapYear y then 1 else 0)
  | _ => 0

/-- Proleptic Gregorian day number (rata die): day 1 is 0001-01-01, matching
Python's `date.toordinal`.  Used to express "shift by exactly one day" and
the chronological order on dates. -/
def rataDie (d : CalendarDate) : Int :=
  365 * (d.year - 1) + (d.year - 1) / 4 - (d.year - 1) / 100 + (d.year - 1) / 400 +
    (daysBeforeMonth d.year d.month : Int) + (d.day : Int)

/-- Modelled from the spec (§4.1): ISO weekday numbering, Monday = 1 …
Sunday = 7 (as Python's `date.isoweekday`: rata die day 1, 0001-01-01, is a
Monday). -/
def isoWeekday (d : CalendarDate) : Nat :=
  ((rataDie d - 1) % 7).toNat + 1

/-- Modelled from the spec (§4.1): weekend = Saturday ∪ Sunday under ISO
weekday numbering. -/
def is_weekend (d : CalendarDate) : Bool :=
  isoWeekday d == 6 || isoWeekday d == 7

/-- Modelled from the spec (§4.1): a weekday is a Monday–Friday date. -/
def is_weekday (d : CalendarDate) : Bool :=
  1 ≤ isoWeekday d && isoWeekday d ≤ 5

/-- Modelled from the spec (§4.1): the optional first-day-of-week
configuration, `first_day_of_week ∈ {Monday, Sunday}`, default Monday. -/
inductive FirstDay where
  | monday
  | sunday
deriving DecidableEq

/-- Number of days from the first day of `d`'s week (under configuration
`fd`) up to `d`; always in 0–6. -/
def weekOffset (d : CalendarDate) (fd : FirstDay) : Nat :=
  match fd with
  | .monday => isoWeekday d - 1
  | .sunday => isoWeekday d % 7

/-- Modelled from the spec (§4.1): date of the first day (Monday, or the
configured first day) of that week; time-of-day unchanged. -/
def beginning_of_week (d : CalendarDate) (fd : FirstDay := .monday) : CalendarDate :=
  days_ago d (weekOffset d fd)

/-- Modelled from the spec (§4.1): date of the last day of that week;
time-of-day unchanged. -/
def end_of_week (d : CalendarDate) (fd : FirstDay := .monday) : CalendarDate :=
  days_since d (6 - weekOffset d fd)

/-- Time-of-day in microseconds since midnight. -/
def timeKey (d : CalendarDate) : Nat :=
  ((d.hour * 60 + d.minute) * 60 + d.second) * 1000000 + d.microsecond

/-- Chronological key: microseconds since the epoch of the rata die count.
On valid dates it orders CalendarDates chronologically. -/
def dateKey (d : CalendarDate) : Int :=
  rataDie d * 86400000000 + (timeKey d : Int)

/-- The chronological order `≤` on CalendarDates used by the spec's
properties (§8). -/
def dateLe (a b : CalendarDate) : Prop :=
  dateKey a ≤ dateKey b

instance (a b : CalendarDate) : Decidable (dateLe a b) := by
  unfold dateLe
  exact inferInstance

/-- A concrete valid date used to instantiate the universally quantified
properties: 2024-02-29 23:59:59.999999, the last instant of a leap day. -/
def sample : CalendarDate :=
  ⟨2024, 2, 29, 23, 59, 59, 999999⟩

/-- A second concrete valid date: 2024-03-01 00:00:00, the first instant
after a leap day. -/
def sample2 : CalendarDate :=
  ⟨2024, 3, 1, 0, 0, 0, 0⟩

/-! ## Basic month arithmetic -/

lemma daysInMonth_pos (y : Int) (m : Nat) (h1 : 1 ≤ m) (h12 : m ≤ 12) :
    1 ≤ daysInMonth y m := by
  interval_cases m <;> simp only [daysInMonth] <;> first | omega | (split <;> omega)

lemma daysInMonth_le (y : Int) (m : Nat) : daysInMonth y m ≤ 31 := by
  unfold daysInMonth
  split <;> first | omega | (split <;> omega)

lemma daysBeforeMonth_succ (y : Int) (m : Nat) (h1 : 1 ≤ m) (h : m < 12) :
    daysBeforeMonth y (m + 1) = daysBeforeMonth y m + daysInMonth y m := by
  interval_cases m <;> cases hL : isLeapYear y <;>
    simp [daysBeforeMonth, daysInMonth, hL]

/-! ## Validity preservation of the one-day steps -/

lemma valid_tomorrow {d : CalendarDate} (h : Valid d) : Valid (tomorrow d) := by
  obtain ⟨y, m, da, hh, mi, ss, us⟩ := d
  unfold Valid at h
  dsimp only at h
  obtain ⟨h1, h2, h3, h4, h5, h6, h7, h8⟩ := h
  unfold tomorrow
  dsimp only
  split_ifs with hlt hm
  · unfold Valid
    dsimp only
    omega
  · have hp := daysInMonth_pos y (m + 1) (by omega) (by omega)
    unfold Valid
    dsimp only
    omega
  · have hp : daysInMonth (y + 1) 1 = 31 := rfl
    unfold Valid
    dsimp only
    omega

lemma valid_yesterday {d : CalendarDate} (h : Valid d) : Valid (yesterday d) := by
  obtain ⟨y, m, da, hh, mi, ss, us⟩ := d
  unfold Valid at h
  dsimp only at h
  obtain ⟨h1, h2, h3, h4, h5, h6, h7, h8⟩ := h
  unfold yesterday
  dsimp only
  split_ifs with hgt hm
  · unfold Valid
    dsimp only
    omega
  · have hp := daysInMonth_pos y (m - 1) (by omega) (by omega)
    unfold Valid
    dsimp only
    omega
  · have hp : daysInMonth (y - 1) 12 = 31 := rfl
    unfold Valid
    dsimp only
    omega

/-! ## Round trip of the one-day steps -/

lemma tomorrow_yesterday {d : CalendarDate} (h : Valid d) :
    tomorrow (yesterday d) = d := by
  obtain ⟨y, m, da, hh, mi, ss, us⟩ := d
  unfold Valid at h
  dsimp only at h
  obtain ⟨h1, h2, h3, h4, h5, h6, h7, h8⟩ := h
  unfold yesterday
  dsimp only
  split_ifs with hgt hm
  · unfold tomorrow
    dsimp only
    rw [if_pos (show da - 1 < daysInMonth y m by omega)]
    simp only [CalendarDate.mk.injEq, true_and, and_true]
    omega
  · unfold tomorrow
    dsimp only
    rw [if_neg (lt_irrefl (daysInMonth y (m - 1))),
      if_pos (show m - 1 < 12 by omega)]
    simp only [CalendarDate.mk.injEq, true_and, and_true]
    omega
  · have hdim : daysInMonth (y - 1) 12 = 31 := rfl
    unfold tomorrow
    dsimp only
    rw [hdim, if_neg (by omega), if_neg (show ¬(12 : Nat) < 12 by omega)]
    simp only [CalendarDate.mk.injEq, true_and, and_true]
    omega

/-! ## Rata die arithmetic: the one-day steps move the day number by one -/

lemma rataDie_year_step (y : Int) (hh mi ss us : Nat) :
    rataDie ⟨y + 1, 1, 1, hh, mi, ss, us⟩ = rataDie ⟨y, 12, 31, hh, mi, ss, us⟩ + 1 := by
  have hb1 : daysBeforeMonth (y + 1) 1 = 0 := rfl
  have hb12 : daysBeforeMonth y 12 = 334 + (if isLeapYear y then 1 else 0) := rfl
  unfold rataDie
  dsimp only
  rw [hb1, hb12]
  by_cases hL : isLeapYear y = true
  · rw [if_pos hL]
    simp only [isLeapYear, Bool.and_eq_true, beq_iff_eq, Bool.or_eq_true,
      bne_iff_ne, ne_eq] at hL
    push_cast
    omega
  · rw [if_neg hL]
    simp only [isLeapYear, Bool.and_eq_true, beq_iff_eq, Bool.or_eq_true,
      bne_iff_ne, ne_eq] at hL
    push_cast
    omega

lemma rataDie_tomorrow {d : CalendarDate} (h : Valid d) :
    rataDie (tomorrow d) = rataDie d + 1 := by
  obtain ⟨y, m, da, hh, mi, ss, us⟩ := d
  unfold Valid at h
  dsimp only at h
  obtain ⟨h1, h2, h3, h4, h5, h6, h7, h8⟩ := h
  unfold tomorrow
  dsimp only
  split_ifs with hlt hm
  · unfold rataDie
    dsimp only
    push_cast
    ring
  · have hsucc := daysBeforeMonth_succ y m h1 hm
    have hda : da = daysInMonth y m := by omega
    unfold rataDie
    dsimp only
    rw [hsucc, hda]
    push_cast
    ring
  · have hm12 : m = 12 := by omega
    subst hm12
    have hdim : daysInMonth y 12 = 31 := rfl
    have hda : da = 31 := by omega
    subst hda
    exact rataDie_year_step y hh mi ss us

lemma rataDie_yesterday {d : CalendarDate} (h : Valid d) :
    rataDie (yesterday d) = rataDie d - 1 := by
  have h2 := rataDie_tomorrow (valid_yesterday h)
  rw [tomorrow_yesterday h] at h2
  omega

/-! ## Time-of-day preservation -/

lemma tomorrow_time (d : CalendarDate) :
    (tomorrow d).hour = d.hour ∧ (tomorrow d).minute = d.minute ∧
      (tomorrow d).second = d.second ∧ (tomorrow d).microsecond = d.microsecond := by
  unfold tomorrow
  split_ifs <;> exact ⟨rfl, rfl, rfl, rfl⟩

lemma yesterday_time (d : CalendarDate) :
    (yesterday d).hour = d.hour ∧ (yesterday d).minute = d.minute ∧
      (yesterday d).second = d.second ∧ (yesterday d).microsecond = d.microsecond := by
  unfold yesterday
  split_ifs <;> exact ⟨rfl, rfl, rfl, rfl⟩

lemma timeKey_tomorrow (d : CalendarDate) : timeKey (tomorrow d) = timeKey d := by
  unfold tomorrow timeKey
  split_ifs <;> rfl

lemma timeKey_yesterday (d : CalendarDate) : timeKey (yesterday d) = timeKey d := by
  unfold yesterday timeKey
  split_ifs <;> rfl

/-! ## Iterated steps: days_since and days_ago -/

lemma days_since_succ (d : CalendarDate) (k : Nat) :
    days_since d (k + 1) = tomorrow (days_since d k) :=
  Function.iterate_succ_apply' tomorrow k d

lemma days_ago_succ_inner (d : CalendarDate) (k : Nat) :
    days_ago d (k + 1) = days_ago (yesterday d) k :=
  Function.iterate_succ_apply yesterday k d

lemma days_ago_succ (d : CalendarDate) (k : Nat) :
    days_ago d (k + 1) = yesterday (days_ago d k) :=
  Function.iterate_succ_apply' yesterday k d

lemma valid_days_since {d : CalendarDate} (h : Valid d) (n : Nat) :
    Valid (days_since d n) := by
  induction n with
  | zero => exact h
  | succ k ih =>
      rw [days_since_succ]
      exact valid_tomorrow ih

lemma valid_days_ago {d : CalendarDate} (h : Valid d) (n : Nat) :
    Valid (days_ago d n) := by
  induction n with
  | zero => exact h
  | succ k ih =>
      rw [days_ago_succ]
      exact valid_yesterday ih

lemma rataDie_days_since {d : CalendarDate} (h : Valid d) (n : Nat) :
    rataDie (days_since d n) = rataDie d + n := by
  induction n with
  | zero =>
      show rataDie d = rataDie d + ((0 : Nat) : Int)
      simp
  | succ k ih =>
      rw [days_since_succ, rataDie_tomorrow (valid_days_since h k), ih]
      push_cast
      ring

lemma rataDie_days_ago {d : CalendarDate} (h : Valid d) (n : Nat) :
    rataDie (days_ago d n) = rataDie d - n := by
  induction n with
  | zero =>
      show rataDie d = rataDie d - ((0 : Nat) : Int)
      simp
  | succ k ih =>
      rw [days_ago_succ, rataDie_yesterday (valid_days_ago h k), ih]
      push_cast
      ring

lemma timeKey_days_since (d : CalendarDate) (n : Nat) :
    timeKey (days_since d n) = timeKey d := by
  induction n with
  | zero => rfl
  | succ k ih => rw [days_since_succ, timeKey_tomorrow, ih]

lemma timeKey_days_ago (d : CalendarDate) (n : Nat) :
    timeKey (days_ago d n) = timeKey d := by
  induction n with
  | zero => rfl
  | succ k ih => rw [days_ago_succ, timeKey_yesterday, ih]

lemma days_since_days_ago {n : Nat} :
    ∀ d : CalendarDate, Valid d → days_since (days_ago d n) n = d := by
  induction n with
  | zero =>
      intro d _
      rfl
  | succ k ih =>
      intro d h
      rw [days_ago_succ_inner, days_since_succ,
        ih (yesterday d) (valid_yesterday h), tomorrow_yesterday h]

/-! ## Weekday and week arithmetic -/

lemma isoWeekday_bounds (d : CalendarDate) :
    1 ≤ isoWeekday d ∧ isoWeekday d ≤ 7 := by
  unfold isoWeekday
  have h1 := Int.emod_nonneg (rataDie d - 1) (by norm_num : (7 : Int) ≠ 0)
  have h2 := Int.emod_lt_of_pos (rataDie d - 1) (by norm_num : (0 : Int) < 7)
  omega

lemma weekOffset_le (d : CalendarDate) (fd : FirstDay) : weekOffset d fd ≤ 6 := by
  have hb := isoWeekday_bounds d
  cases fd <;> simp only [weekOffset] <;> omega

lemma rataDie_beginning_of_week {d : CalendarDate} (h : Valid d) (fd : FirstDay) :
    rataDie (beginning_of_week d fd) = rataDie d - weekOffset d fd := by
  unfold beginning_of_week
  rw [rataDie_days_ago h]

lemma rataDie_end_of_week {d : CalendarDate} (h : Valid d) (fd : FirstDay) :
    rataDie (end_of_week d fd) = rataDie d + (6 - weekOffset d fd : Nat) := by
  unfold end_of_week
  rw [rataDie_days_since h]

lemma isoWeekday_beginning_of_week {d : CalendarDate} (h : Valid d) :
    isoWeekday (beginning_of_week d .monday) = 1 := by
  have hr := rataDie_beginning_of_week h .monday
  simp only [weekOffset] at hr
  unfold isoWeekday at hr ⊢
  have h1 := Int.emod_nonneg (rataDie d - 1) (by norm_num : (7 : Int) ≠ 0)
  have h2 := Int.emod_lt_of_pos (rataDie d - 1) (by norm_num : (0 : Int) < 7)
  omega

/-! ## Validity of the remaining operations -/

lemma valid_beginning_of_day {d : CalendarDate} (h : Valid d) :
    Valid (beginning_of_day d) := by
  unfold Valid at h ⊢
  unfold beginning_of_day
  dsimp only
  omega

lemma valid_end_of_day {d : CalendarDate} (h : Valid d) :
    Valid (end_of_day d) := by
  unfold Valid at h ⊢
  unfold end_of_day
  dsimp only
  omega

lemma valid_beginning_of_month {d : CalendarDate} (h : Valid d) :
    Valid (beginning_of_month d) := by
  unfold Valid at h ⊢
  unfold beginning_of_month
  dsimp only
  have hp := daysInMonth_pos d.year d.month (by omega) (by omega)
  omega

lemma valid_end_of_month {d : CalendarDate} (h : Valid d) :
    Valid (end_of_month d) := by
  unfold Valid at h ⊢
  unfold end_of_month
  dsimp only
  have hp := daysInMonth_pos d.year d.month (by omega) (by omega)
  omega

lemma valid_beginning_of_week {d : CalendarDate} (h : Valid d) (fd : FirstDay) :
    Valid (beginning_of_week d fd) :=
  valid_days_ago h _

lemma valid_end_of_week {d : CalendarDate} (h : Valid d) (fd : FirstDay) :
    Valid (end_of_week d fd) :=
  valid_days_since h _

/-! ## Chronological order facts -/

lemma timeKey_lt (d : CalendarDate) (h : Valid d) : timeKey d ≤ 86399999999 := by
  unfold Valid at h
  unfold timeKey
  omega

lemma rataDie_beginning_of_day (d : CalendarDate) :
    rataDie (beginning_of_day d) = rataDie d := rfl

lemma rataDie_end_of_day (d : CalendarDate) :
    rataDie (end_of_day d) = rataDie d := rfl

lemma dateLe_beginning_of_day {d : CalendarDate} (_h : Valid d) :
    dateLe (beginning_of_day d) d := by
  have ht : timeKey (beginning_of_day d) = 0 := by
    unfold timeKey beginning_of_day
    dsimp only
  unfold dateLe dateKey
  rw [rataDie_beginning_of_day, ht]
  omega

lemma dateLe_end_of_day {d : CalendarDate} (h : Valid d) :
    dateLe d (end_of_day d) := by
  have ht : timeKey (end_of_day d) = 86399999999 := by
    unfold timeKey end_of_day
    dsimp only
  unfold dateLe dateKey
  rw [rataDie_end_of_day, ht]
  have := timeKey_lt d h
  omega

lemma dateLe_beginning_of_week {d : CalendarDate} (h : Valid d) (fd : FirstDay) :
    dateLe (beginning_of_week d fd) d := by
  unfold dateLe dateKey
  rw [rataDie_beginning_of_week h fd]
  unfold beginning_of_week
  rw [timeKey_days_ago]
  omega

lemma dateLe_end_of_week {d : CalendarDate} (h : Valid d) (fd : FirstDay) :
    dateLe d (end_of_week d fd) := by
  unfold dateLe dateKey
  rw [rataDie_end_of_week h fd]
  unfold end_of_week
  rw [timeKey_days_since]
  omega

lemma rataDie_week_span {d : CalendarDate} (h : Valid d) (fd : FirstDay) :
    rataDie (end_of_week d fd) - rataDie (beginning_of_week d fd) = 6 := by
  rw [rataDie_end_of_week h fd, rataDie_beginning_of_week h fd]
  have := weekOffset_le d fd
  omega

/-! ## The claims -/

/-- C1: every DateExtensions operation is a total function on structurally
valid CalendarDates: each date-valued operation (beginning_of_day,
end_of_day, tomorrow, yesterday, days_ago, days_since, beginning_of_week,
end_of_week, beginning_of_month, end_of_month) returns a valid derived
CalendarDate for every valid input, every non-negative `n` and both week
configurations, and the boolean operations is_weekend / is_weekday return a
definite Boolean; no call fails on the valid domain. -/
theorem C1_total_on_valid (d : CalendarDate) (n : Nat) (fd : FirstDay)
    (h : Valid d) :
    Valid (beginning_of_day d) ∧ Valid (end_of_day d) ∧
      Valid (tomorrow d) ∧ Valid (yesterday d) ∧
      Valid (days_ago d n) ∧ Valid (days_since d n) ∧
      Valid (beginning_of_week d fd) ∧ Valid (end_of_week d fd) ∧
      Valid (beginning_of_month d) ∧ Valid (end_of_month d) ∧
      (is_weekend d = true ∨ is_weekend d = false) ∧
      (is_weekday d = true ∨ is_weekday d = false) :=
  ⟨valid_beginning_of_day h, valid_end_of_day h, valid_tomorrow h,
    valid_yesterday h, valid_days_ago h n, valid_days_since h n,
    valid_beginning_of_week h fd, valid_end_of_week h fd,
    valid_beginning_of_month h, valid_end_of_month h,
    Bool.eq_false_or_eq_true _, Bool.eq_false_or_eq_true _⟩

theorem C1_total_on_valid_witness :
    Valid sample ∧
      (Valid (beginning_of_day sample) ∧ Valid (end_of_day sample) ∧
        Valid (tomorrow sample) ∧ Valid (yesterday sample) ∧
        Valid (days_ago sample 5) ∧ Valid (days_since sample 5) ∧
        Valid (beginning_of_week sample .sunday) ∧
        Valid (end_of_week sample .sunday) ∧
        Valid (beginning_of_month sample) ∧ Valid (end_of_month sample) ∧
        (is_weekend sample = true ∨ is_weekend sample = false) ∧
        (is_weekday sample = true ∨ is_weekday sample = false)) :=
  ⟨by decide, C1_total_on_valid sample 5 .sunday (by decide)⟩

/-- C2: for every valid CalendarDate `d`, `tomorrow (yesterday d) = d`;
tomorrow and yesterday move the proleptic Gregorian day number (rata die) by
exactly +1 and −1 while leaving the time-of-day fields unchanged, and they
cross the Feb 29 boundary of a leap year correctly. -/
theorem C2_one_day_shift_roundtrip (d : CalendarDate) (h : Valid d) :
    tomorrow (yesterday d) = d ∧
      rataDie (tomorrow d) = rataDie d + 1 ∧
      rataDie (yesterday d) = rataDie d - 1 ∧
      ((tomorrow d).hour = d.hour ∧ (tomorrow d).minute = d.minute ∧
        (tomorrow d).second = d.second ∧ (tomorrow d).microsecond = d.microsecond) ∧
      ((yesterday d).hour = d.hour ∧ (yesterday d).minute = d.minute ∧
        (yesterday d).second = d.second ∧ (yesterday d).microsecond = d.microsecond) ∧
      tomorrow ⟨2024, 2, 28, 0, 0, 0, 0⟩ = ⟨2024, 2, 29, 0, 0, 0, 0⟩ ∧
      tomorrow ⟨2024, 2, 29, 0, 0, 0, 0⟩ = ⟨2024, 3, 1, 0, 0, 0, 0⟩ ∧
      yesterday ⟨2024, 3, 1, 0, 0, 0, 0⟩ = ⟨2024, 2, 29, 0, 0, 0, 0⟩ :=
  ⟨tomorrow_yesterday h, rataDie_tomorrow h, rataDie_yesterday h,
    tomorrow_time d, yesterday_time d, by decide, by decide, by decide⟩

theorem C2_one_day_shift_roundtrip_witness :
    Valid sample ∧
      (tomorrow (yesterday sample) = sample ∧
        rataDie (tomorrow sample) = rataDie sample + 1 ∧
        rataDie (yesterday sample) = rataDie sample - 1 ∧
        ((tomorrow sample).hour = sample.hour ∧
          (tomorrow sample).minute = sample.minute ∧
          (tomorrow sample).second = sample.second ∧
          (tomorrow sample).microsecond = sample.microsecond) ∧
        ((yesterday sample).hour = sample.hour ∧
          (yesterday sample).minute = sample.minute ∧
          (yesterday sample).second = sample.second ∧
          (yesterday sample).microsecond = sample.microsecond) ∧
        tomorrow ⟨2024, 2, 28, 0, 0, 0, 0⟩ = ⟨2024, 2, 29, 0, 0, 0, 0⟩ ∧
        tomorrow ⟨2024, 2, 29, 0, 0, 0, 0⟩ = ⟨2024, 3, 1, 0, 0, 0, 0⟩ ∧
        yesterday ⟨2024, 3, 1, 0, 0, 0, 0⟩ = ⟨2024, 2, 29, 0, 0, 0, 0⟩) :=
  ⟨by decide, C2_one_day_shift_roundtrip sample (by decide)⟩

/-- C3: for every valid CalendarDate `d` and every non-negative integer `n`,
`days_since (days_ago d n) n = d`; days_ago subtracts exactly `n` days and
days_since adds exactly `n` days on the rata die day number. -/
theorem C3_n_day_roundtrip (d : CalendarDate) (n : Nat) (h : Valid d) :
    days_since (days_ago d n) n = d ∧
      rataDie (days_ago d n) = rataDie d - n ∧
      rataDie (days_since d n) = rataDie d + n :=
  ⟨days_since_days_ago d h, rataDie_days_ago h n, rataDie_days_since h n⟩

theorem C3_n_day_roundtrip_witness :
    Valid sample2 ∧
      (days_since (days_ago sample2 3) 3 = sample2 ∧
        rataDie (days_ago sample2 3) = rataDie sample2 - (3 : Nat) ∧
        rataDie (days_since sample2 3) = rataDie sample2 + (3 : Nat)) :=
  ⟨by decide, C3_n_day_roundtrip sample2 3 (by decide)⟩

/-- C4: for every valid CalendarDate `d`, is_weekend and is_weekday are
mutually exclusive and jointly exhaustive (`is_weekend d ≠ is_weekday d`),
is_weekend holds exactly on Saturday (ISO 6) and Sunday (ISO 7), and on the
concrete dates 2024-01-06 (Saturday) and 2024-01-08 (Monday) is_weekend is
true resp. false. -/
theorem C4_weekend_weekday_partition (d : CalendarDate) (_h : Valid d) :
    is_weekend d ≠ is_weekday d ∧
      (is_weekend d = true ↔ isoWeekday d = 6 ∨ isoWeekday d = 7) ∧
      is_weekend ⟨2024, 1, 6, 0, 0, 0, 0⟩ = true ∧
      is_weekend ⟨2024, 1, 8, 0, 0, 0, 0⟩ = false := by
  obtain ⟨hb1, hb2⟩ := isoWeekday_bounds d
  refine ⟨?_, ?_, by decide, by decide⟩
  · unfold is_weekend is_weekday
    revert hb1 hb2
    generalize isoWeekday d = w
    intro hb1 hb2
    interval_cases w <;> decide
  · unfold is_weekend
    simp only [Bool.or_eq_true, beq_iff_eq]

theorem C4_weekend_weekday_partition_witness :
    Valid sample ∧
      (is_weekend sample ≠ is_weekday sample ∧
        (is_weekend sample = true ↔ isoWeekday sample = 6 ∨ isoWeekday sample = 7) ∧
        is_weekend ⟨2024, 1, 6, 0, 0, 0, 0⟩ = true ∧
        is_weekend ⟨2024, 1, 8, 0, 0, 0, 0⟩ = false) :=
  ⟨by decide, C4_weekend_weekday_partition sample (by decide)⟩

/-- C5: for every valid CalendarDate `d`,
`beginning_of_day d ≤ d ≤ end_of_day d` in chronological order;
beginning_of_day keeps the date fields and zeroes the time component, and
end_of_day keeps the date fields and sets the time to the last representable
instant 23:59:59.999999. -/
theorem C5_day_bounds (d : CalendarDate) (h : Valid d) :
    dateLe (beginning_of_day d) d ∧ dateLe d (end_of_day d) ∧
      (beginning_of_day d).year = d.year ∧ (beginning_of_day d).month = d.month ∧
      (beginning_of_day d).day = d.day ∧ (beginning_of_day d).hour = 0 ∧
      (beginning_of_day d).minute = 0 ∧ (beginning_of_day d).second = 0 ∧
      (beginning_of_day d).microsecond = 0 ∧
      (end_of_day d).year = d.year ∧ (end_of_day d).month = d.month ∧
      (end_of_day d).day = d.day ∧ (end_of_day d).hour = 23 ∧
      (end_of_day d).minute = 59 ∧ (end_of_day d).second = 59 ∧
      (end_of_day d).microsecond = 999999 :=
  ⟨dateLe_beginning_of_day h, dateLe_end_of_day h, rfl, rfl, rfl, rfl, rfl, rfl,
    rfl, rfl, rfl, rfl, rfl, rfl, rfl, rfl⟩

theorem C5_day_bounds_witness :
    Valid sample2 ∧
      (dateLe (beginning_of_day sample2) sample2 ∧
        dateLe sample2 (end_of_day sample2) ∧
        (beginning_of_day sample2).year = sample2.year ∧
        (beginning_of_day sample2).month = sample2.month ∧
        (beginning_of_day sample2).day = sample2.day ∧
        (beginning_of_day sample2).hour = 0 ∧
        (beginning_of_day sample2).minute = 0 ∧
        (beginning_of_day sample2).second = 0 ∧
        (beginning_of_day sample2).microsecond = 0 ∧
        (end_of_day sample2).year = sample2.year ∧
        (end_of_day sample2).month = sample2.month ∧
        (end_of_day sample2).day = sample2.day ∧
        (end_of_day sample2).hour = 23 ∧
        (end_of_day sample2).minute = 59 ∧
        (end_of_day sample2).second = 59 ∧
        (end_of_day sample2).microsecond = 999999) :=
  ⟨by decide, C5_day_bounds sample2 (by decide)⟩

/-- C6: for every valid CalendarDate `d` and both week configurations
(first_day_of_week ∈ {Monday, Sunday}, default Monday),
`beginning_of_week d ≤ d ≤ end_of_week d` in chronological order, the week
spans exactly `end_of_week d - beginning_of_week d = 6` days on the rata die
count, and under the default Monday configuration beginning_of_week lands on
a Monday (ISO weekday 1). -/
theorem C6_week_bounds (d : CalendarDate) (fd : FirstDay) (h : Valid d) :
    dateLe (beginning_of_week d fd) d ∧ dateLe d (end_of_week d fd) ∧
      rataDie (end_of_week d fd) - rataDie (beginning_of_week d fd) = 6 ∧
      isoWeekday (beginning_of_week d .monday) = 1 :=
  ⟨dateLe_beginning_of_week h fd, dateLe_end_of_week h fd,
    rataDie_week_span h fd, isoWeekday_beginning_of_week h⟩

theorem C6_week_bounds_witness :
    Valid sample ∧
      (dateLe (beginning_of_week sample .sunday) sample ∧
        dateLe sample (end_of_week sample .sunday) ∧
        rataDie (end_of_week sample .sunday) -
          rataDie (beginning_of_week sample .sunday) = 6 ∧
        isoWeekday (beginning_of_week sample .monday) = 1) :=
  ⟨by decide, C6_week_bounds sample .sunday (by decide)⟩

/-- C7: beginning_of_month and end_of_month keep the year and month and move
the day to the first resp. last calendar day of that month (the last day
being daysInMonth, which resolves leap years); concretely
beginning_of_month 2024-02-15 = 2024-02-01, end_of_month 2024-02-15 =
2024-02-29 (leap year) and end_of_month 2023-02-10 = 2023-02-28. -/
theorem C7_month_bounds (d : CalendarDate) (h : Valid d) :
    (beginning_of_month d).year = d.year ∧
      (beginning_of_month d).month = d.month ∧
      (beginning_of_month d).day = 1 ∧ Valid (beginning_of_month d) ∧
      (end_of_month d).year = d.year ∧ (end_of_month d).month = d.month ∧
      (end_of_month d).day = daysInMonth d.year d.month ∧
      Valid (end_of_month d) ∧
      beginning_of_month ⟨2024, 2, 15, 0, 0, 0, 0⟩ = ⟨2024, 2, 1, 0, 0, 0, 0⟩ ∧
      end_of_month ⟨2024, 2, 15, 0, 0, 0, 0⟩ = ⟨2024, 2, 29, 0, 0, 0, 0⟩ ∧
      end_of_month ⟨2023, 2, 10, 0, 0, 0, 0⟩ = ⟨2023, 2, 28, 0, 0, 0, 0⟩ :=
  ⟨rfl, rfl, rfl, valid_beginning_of_month h, rfl, rfl, rfl,
    valid_end_of_month h, by decide, by decide, by decide⟩

theorem C7_month_bounds_witness :
    Valid sample ∧
      ((beginning_of_month sample).year = sample.year ∧
        (beginning_of_month sample).month = sample.month ∧
        (beginning_of_month sample).day = 1 ∧ Valid (beginning_of_month sample) ∧
        (end_of_month sample).year = sample.year ∧
        (end_of_month sample).month = sample.month ∧
        (end_of_month sample).day = daysInMonth sample.year sample.month ∧
        Valid (end_of_month sample) ∧
        beginning_of_month ⟨2024, 2, 15, 0, 0, 0, 0⟩ = ⟨2024, 2, 1, 0, 0, 0, 0⟩ ∧
        end_of_month ⟨2024, 2, 15, 0, 0, 0, 0⟩ = ⟨2024, 2, 29, 0, 0, 0, 0⟩ ∧
        end_of_month ⟨2023, 2, 10, 0, 0, 0, 0⟩ = ⟨2023, 2, 28, 0, 0, 0, 0⟩) :=
  ⟨by decide, C7_month_bounds sample (by decide)⟩

/-- C8: tomorrow crosses the year boundary: applied to 2023-12-31 it
returns 2024-01-01 (time-of-day unchanged at midnight). -/
theorem C8_year_boundary :
    tomorrow ⟨2023, 12, 31, 0, 0, 0, 0⟩ = ⟨2024, 1, 1, 0, 0, 0, 0⟩ := by
  decide

end PyDate
